import Mathlib

/-!
Shallow embedding of the ASCII-art rendering and frame-interpolation pipeline
of `src/ascii_agent_hackathon/img_to_ascii.py`, together with theorems settling
the specification claims about it.

Conventions of the embedding:
* Python machine integers and pixel channel values become `Nat`.
* Python floats become `ℚ`; `int(x)` (truncation toward zero) becomes `pyTrunc`.
* The PIL image library is external: a decoded, already-resized image is
  modelled as a pair of total pixel functions (grayscale and RGB), and the
  Lanczos resampler is an abstract parameter.
* Fallible/IO behaviour (terminal writes, sleeps) is modelled by the pure
  values the code computes: the output string, the list of frames displayed.
-/

namespace ImgToAscii

/-- Python `int(x)` on a float: truncation toward zero. -/
def pyTrunc (q : ℚ) : Int :=
  if q < 0 then -Int.floor (-q) else Int.floor q

/-- `rgb_to_ansi` (img_to_ascii.py:10-12): ANSI 24-bit foreground color escape. -/
def rgb_to_ansi (r g b : Nat) : String :=
  "\x1b[38;2;" ++ toString r ++ ";" ++ toString g ++ ";" ++ toString b ++ "m"

/-- The ANSI reset sequence `"\033[0m"` emitted by the source. -/
def ansi_reset : String := "\x1b[0m"

/-- `adjust_brightness` (img_to_ascii.py:15-17):
`min(255, max(0, int(value * factor)))`. -/
def adjust_brightness (value : Nat) (factor : ℚ) : Nat :=
  (min 255 (max 0 (pyTrunc ((value : ℚ) * factor)))).toNat

/-- The `"blocks"` ramp `" ░▒▓█"` (img_to_ascii.py:33). -/
def blocksRamp : List Char := [' ', '░', '▒', '▓', '█']

/-- The `"ascii"` ramp `" .:-=+*#%@"` (img_to_ascii.py:37). -/
def asciiRamp : List Char := [' ', '.', ':', '-', '=', '+', '*', '#', '%', '@']

/-- The `"mixed"` (default) ramp `" .·:¦+*#%@█"` (img_to_ascii.py:40). -/
def mixedRamp : List Char := [' ', '.', '·', ':', '¦', '+', '*', '#', '%', '@', '█']

/-- Ramp selection of `get_brightness_char` (img_to_ascii.py:31-40):
`"blocks"` and `"ascii"` are matched exactly, everything else falls to the
`else` branch (mixed). -/
def ramp_for (style : String) : List Char :=
  if style = "blocks" then blocksRamp
  else if style = "ascii" then asciiRamp
  else mixedRamp

/-- The ramp after the optional reversal (img_to_ascii.py:42-43). -/
def effective_ramp (style : String) (invert : Bool) : List Char :=
  if invert then (ramp_for style).reverse else ramp_for style

/-- The index computation of `get_brightness_char` (img_to_ascii.py:45):
`min(brightness * len(ascii_chars) // 256, len(ascii_chars) - 1)`. -/
def char_index (cs : List Char) (brightness : Nat) : Nat :=
  min (brightness * cs.length / 256) (cs.length - 1)

/-- `get_brightness_char` (img_to_ascii.py:20-46). -/
def get_brightness_char (brightness : Nat) (style : String) (invert : Bool) : Char :=
  let cs := effective_ramp style invert
  cs.getD (char_index cs brightness) ' '

/-- Modelled from the spec: a glyph ramp "ordered from dense to sparse" must
end with the blank glyph `' '` — the sparsest possible glyph, carrying no
ink — and in particular must not begin with it. -/
def spec_dense_to_sparse (cs : List Char) : Prop :=
  cs.getLast? = some ' ' ∧ cs.head? ≠ some ' '

/-- The per-pixel color computation of `img_to_ascii` (img_to_ascii.py:126-132):
when `brightness_boost > 1.0`, each channel is passed through
`adjust_brightness(·, brightness_boost * 0.7)`; otherwise the channels are
left unchanged. -/
def pixel_rgb (boost : ℚ) (r g b : Nat) : Nat × Nat × Nat :=
  if 1 < boost then
    (adjust_brightness r (boost * (7 / 10)), adjust_brightness g (boost * (7 / 10)),
      adjust_brightness b (boost * (7 / 10)))
  else (r, g, b)

/-- The rendering loop of `img_to_ascii` (img_to_ascii.py:116-147), over the
already-resized image given as a grayscale pixel function `gray` and an RGB
pixel function `rgb` (the Lanczos resample and mode conversions are PIL's). -/
def img_to_ascii_render (ascii_width ascii_height : Nat)
    (gray : Nat → Nat → Nat) (rgb : Nat → Nat → Nat × Nat × Nat)
    (colored : Bool) (style : String) (boost : ℚ) (invert : Bool) : String :=
  String.join ((List.range ascii_height).map (fun y =>
    String.join ((List.range ascii_width).map (fun x =>
      let char := get_brightness_char (gray x y) style invert
      if colored then
        let p := pixel_rgb boost (rgb x y).1 (rgb x y).2.1 (rgb x y).2.2
        rgb_to_ansi p.1 p.2.1 p.2.2 ++ String.singleton char
      else
        String.singleton char))
    ++ (if colored then ansi_reset else "") ++ "\n"))
  ++ (if colored then ansi_reset else "")

/-- The target-height computation of `img_to_ascii` (img_to_ascii.py:99-105):
when `preserve_aspect_ratio`, the caller-supplied `ascii_height` is replaced
by `int(ascii_width * (orig_height / orig_width) * 0.5)`. -/
def effective_height (preserve : Bool) (ascii_width ascii_height orig_w orig_h : Nat) : Nat :=
  if preserve then
    (pyTrunc ((ascii_width : ℚ) * ((orig_h : ℚ) / (orig_w : ℚ)) * (1 / 2))).toNat
  else ascii_height

/-- `img_to_ascii` (img_to_ascii.py:49-147) after the image has been opened
and enhanced: dimension computation followed by the rendering loop. -/
def img_to_ascii_model (orig_w orig_h ascii_width ascii_height : Nat) (preserve : Bool)
    (gray : Nat → Nat → Nat) (rgb : Nat → Nat → Nat × Nat × Nat)
    (colored : Bool) (style : String) (boost : ℚ) (invert : Bool) : String :=
  img_to_ascii_render ascii_width (effective_height preserve ascii_width ascii_height orig_w orig_h)
    gray rgb colored style boost invert

/-- Modelled from the spec: the claimed derived height
`round(target_width * original_height / original_width * 0.5)`. -/
def spec_round_height (ascii_width orig_w orig_h : Nat) : Int :=
  round ((ascii_width : ℚ) * (orig_h : ℚ) / (orig_w : ℚ) * (1 / 2))

/-- An already-decoded color image: pixel dimensions and an RGB pixel
function. -/
structure Img where
  w : Nat
  h : Nat
  px : Nat → Nat → Nat × Nat × Nat

/-- One channel of PIL's `Image.blend` on the `0 ≤ alpha ≤ 1` interpolation
branch: `(UINT8)(in1 + alpha * (in2 - in1))`, float truncation. -/
def blendCh (a b : Nat) (alpha : ℚ) : Nat :=
  (pyTrunc ((a : ℚ) + alpha * ((b : ℚ) - (a : ℚ)))).toNat

/-- PIL's `Image.blend(img1, img2, alpha)`: per-pixel, per-channel linear
interpolation at `img1`'s dimensions. -/
def image_blend (a b : Img) (alpha : ℚ) : Img where
  w := a.w
  h := a.h
  px := fun x y =>
    (blendCh (a.px x y).1 (b.px x y).1 alpha,
      blendCh (a.px x y).2.1 (b.px x y).2.1 alpha,
      blendCh (a.px x y).2.2 (b.px x y).2.2 alpha)

/-- `interpolate_images` (img_to_ascii.py:430-453), with PIL's Lanczos
resampler abstracted as the `resample` parameter: if the two images differ in
size, `img2` is resampled to `img1`'s size, then the pair is alpha-blended.
The RGBA round-trip of the source is the identity on the RGB channels of
opaque images and is dropped. -/
def interpolate_images (resample : Img → Nat → Nat → Img) (img1 img2 : Img)
    (alpha : ℚ) : Img :=
  let img2' := if img1.w = img2.w ∧ img1.h = img2.h then img2
    else resample img2 img1.w img1.h
  image_blend img1 img2' alpha

/-- Placeholder image used to express Python's list indexing `poses[i]` with
`List.getD` at indices that are in range at every use site. -/
def defaultImg : Img := ⟨0, 0, fun _ _ => (0, 0, 0)⟩

/-- `create_interpolated_frames` (img_to_ascii.py:456-522): fewer than 2
poses are returned unchanged; otherwise adjacent pose pairs (plus the
last-to-first pair when `loop_back`) each contribute the starting pose and
`frames_between` blends at `alpha = j/(frames_between+1)`, and a single final
pose (the first when looping back, else the last) closes the sequence. -/
def create_interpolated_frames (resample : Img → Nat → Nat → Img) (poses : List Img)
    (frames_between : Nat) (loop_back : Bool) : List Img :=
  if poses.length < 2 then poses
  else
    let pose_pairs := (List.range (poses.length - 1)).map
      (fun i => (poses.getD i defaultImg, poses.getD (i + 1) defaultImg))
    let pose_pairs := if loop_back
      then pose_pairs ++ [(poses.getLastD defaultImg, poses.headD defaultImg)]
      else pose_pairs
    let all_frames := pose_pairs.foldl
      (fun acc pair =>
        acc ++ pair.1 :: (List.range frames_between).map (fun (j : Nat) =>
          interpolate_images resample pair.1 pair.2
            (((j : ℚ) + 1) / ((frames_between : ℚ) + 1))))
      []
    all_frames ++ [if loop_back then poses.headD defaultImg else poses.getLastD defaultImg]

/-- The loop-termination test of `display_ascii_animation`
(img_to_ascii.py:230): `not loop or (loop_count > 0 and loops_completed >=
loop_count)`, evaluated after a pass completes. -/
def animation_break (loop : Bool) (loop_count : Int) (loops_completed : Nat) : Bool :=
  !loop || (decide (0 < loop_count) && decide (loop_count ≤ (loops_completed : Int)))

/-- The `while True` playback loop of `display_ascii_animation`
(img_to_ascii.py:206-231), modelled by the list of frames displayed, with
fuel bounding the number of passes (`none` = the fuel ran out before the
loop terminated). -/
def play_loop (frames : List String) (loop : Bool) (loop_count : Int) :
    Nat → Nat → Option (List String)
  | 0, _ => none
  | fuel + 1, loops_completed =>
    let lc := loops_completed + 1
    if animation_break loop loop_count lc then some frames
    else match play_loop frames loop loop_count fuel lc with
      | none => none
      | some rest => some (frames ++ rest)

/-- `display_ascii_animation` (img_to_ascii.py:150-241), modelled by the list
of frames displayed: an empty frame list displays nothing and returns
immediately; otherwise the playback loop runs from `loops_completed = 0`. -/
def display_ascii_animation (frames : List String) (loop : Bool) (loop_count : Int)
    (fuel : Nat) : Option (List String) :=
  if frames.isEmpty then some [] else play_loop frames loop loop_count fuel 0

/-- Resampler instance used to witness the interpolation theorems: it keeps
the pixel function and takes the requested dimensions. -/
def witResample : Img → Nat → Nat → Img := fun img w h => ⟨w, h, img.px⟩

/-- A concrete 1×1 image used by witnesses. -/
def witImgA : Img := ⟨1, 1, fun _ _ => (10, 20, 30)⟩

/-- A concrete 2×2 image used by witnesses. -/
def witImgB : Img := ⟨2, 2, fun _ _ => (50, 60, 70)⟩

theorem ramp_for_length_pos (style : String) : 0 < (ramp_for style).length := by
  unfold ramp_for
  split
  · decide
  · split <;> decide

theorem ramp_for_length_le (style : String) : (ramp_for style).length ≤ 256 := by
  unfold ramp_for
  split
  · decide
  · split <;> decide

theorem effective_ramp_length (style : String) (invert : Bool) :
    (effective_ramp style invert).length = (ramp_for style).length := by
  unfold effective_ramp
  split <;> simp

theorem getD_reverse_of_lt (l : List Char) (i : Nat) (h : i < l.length) :
    l.reverse.getD i ' ' = l.getD (l.length - 1 - i) ' ' := by
  rw [List.getD_eq_getElem _ _ (by simpa using h), List.getD_eq_getElem _ _ (by omega)]
  exact List.getElem_reverse ..

theorem Img.ext_of (a b : Img) (hw : a.w = b.w) (hh : a.h = b.h) (hp : a.px = b.px) :
    a = b := by
  cases a
  cases b
  simp_all

theorem blendCh_zero (a b : Nat) : blendCh a b 0 = a := by
  unfold blendCh pyTrunc
  rw [zero_mul, add_zero, if_neg (not_lt.mpr (Nat.cast_nonneg a)), Int.floor_natCast,
    Int.toNat_natCast]

theorem blendCh_one (a b : Nat) : blendCh a b 1 = b := by
  unfold blendCh pyTrunc
  have h : (a : ℚ) + 1 * ((b : ℚ) - (a : ℚ)) = (b : ℚ) := by ring
  rw [h, if_neg (not_lt.mpr (Nat.cast_nonneg b)), Int.floor_natCast, Int.toNat_natCast]

theorem image_blend_zero (a b : Img) : image_blend a b 0 = a := by
  cases a
  simp [image_blend, blendCh_zero]

theorem image_blend_one (a b : Img) : image_blend a b 1 = ⟨a.w, a.h, b.px⟩ := by
  cases b
  simp [image_blend, blendCh_one]

/-- C1 (counterexample): the involution law
`glyph_for(b, style, invert=true) = glyph_for(255-b, style, invert=false)`
fails at brightness `b = 51` with the `"blocks"` style: the inverted glyph is
`'█'` while the uninverted glyph at `255 - 51 = 204` is `'▓'`. -/
theorem c1_involution_counterexample :
    get_brightness_char 51 "blocks" true ≠ get_brightness_char (255 - 51) "blocks" false := by
  decide

/-- C1 (amended): inversion reverses the ramp before indexing, so the mirror
law `glyph_for(b, style, true) = glyph_for(255-b, style, false)` holds exactly
on those brightnesses whose index remainder `(b·L) mod 256` is at most
`256 - L` (with `L` the selected ramp's length); outside that set it can fail
(e.g. `b = 51`, style `"blocks"`). -/
theorem c1_inversion_mirror (b : Nat) (style : String) (hb : b ≤ 255)
    (hr : (b * (ramp_for style).length) % 256 ≤ 256 - (ramp_for style).length) :
    get_brightness_char b style true = get_brightness_char (255 - b) style false := by
  have hL1 := ramp_for_length_pos style
  have hL256 := ramp_for_length_le style
  have hBle : b * (ramp_for style).length ≤ 255 * (ramp_for style).length :=
    Nat.mul_le_mul_right _ hb
  have hCsum : b * (ramp_for style).length + (255 - b) * (ramp_for style).length
      = 255 * (ramp_for style).length := by
    rw [← Nat.add_mul]
    congr 1
    omega
  have hidx : b * (ramp_for style).length / 256 ≤ (ramp_for style).length - 1 := by omega
  have hidx2 : (255 - b) * (ramp_for style).length / 256 ≤ (ramp_for style).length - 1 := by
    have h : (255 - b) * (ramp_for style).length ≤ 255 * (ramp_for style).length :=
      Nat.mul_le_mul_right _ (by omega)
    omega
  have hmirror : (ramp_for style).length - 1 - b * (ramp_for style).length / 256
      = (255 - b) * (ramp_for style).length / 256 := by omega
  unfold get_brightness_char effective_ramp
  simp only [if_pos, Bool.false_eq_true, if_neg, ite_true, ite_false]
  rw [char_index, char_index, List.length_reverse,
    Nat.min_eq_left hidx, Nat.min_eq_left hidx2,
    getD_reverse_of_lt _ _ (by omega), hmirror]

theorem c1_inversion_mirror_witness :
    (0 : Nat) ≤ 255 ∧
      (0 * (ramp_for "blocks").length) % 256 ≤ 256 - (ramp_for "blocks").length ∧
      get_brightness_char 0 "blocks" true = get_brightness_char (255 - 0) "blocks" false :=
  ⟨by decide, by decide, c1_inversion_mirror 0 "blocks" (by decide) (by decide)⟩

/-- C5 (counterexample): no built-in ramp is ordered from dense to sparse —
each begins with the blank glyph `' '`, so the sparsest glyph comes first,
not last. -/
theorem c5_dense_to_sparse_counterexample :
    ¬ spec_dense_to_sparse blocksRamp ∧ ¬ spec_dense_to_sparse asciiRamp ∧
      ¬ spec_dense_to_sparse mixedRamp := by
  unfold spec_dense_to_sparse
  decide

/-- C5 (amended): the three built-in glyph ramps have exactly the stated
sizes — BLOCK has 5 glyphs, ASCII has 10, MIXED has 11 — and each ramp
(uninverted) is ordered from sparse to dense: the blank `' '` comes first and
the densest glyph (`'█'`, `'@'`, `'█'` respectively) comes last. -/
theorem c5_ramps :
    blocksRamp.length = 5 ∧ asciiRamp.length = 10 ∧ mixedRamp.length = 11 ∧
      blocksRamp.head? = some ' ' ∧ blocksRamp.getLast? = some '█' ∧
      asciiRamp.head? = some ' ' ∧ asciiRamp.getLast? = some '@' ∧
      mixedRamp.head? = some ' ' ∧ mixedRamp.getLast? = some '█' := by
  decide

/-- C9: the Glyph Mapper is total — for every non-negative brightness, every
style string and either invert setting, the computed index
`min(brightness * len // 256, len - 1)` is strictly within the effective
ramp's bounds, and the returned character is a member of that ramp. -/
theorem c9_char_index_in_bounds (brightness : Nat) (style : String) (invert : Bool) :
    char_index (effective_ramp style invert) brightness < (effective_ramp style invert).length ∧
      get_brightness_char brightness style invert ∈ effective_ramp style invert := by
  have hpos : 0 < (effective_ramp style invert).length := by
    rw [effective_ramp_length]
    exact ramp_for_length_pos style
  have hlt : char_index (effective_ramp style invert) brightness
      < (effective_ramp style invert).length :=
    Nat.lt_of_le_of_lt (Nat.min_le_right _ _) (Nat.sub_lt hpos Nat.one_pos)
  refine ⟨hlt, ?_⟩
  unfold get_brightness_char
  rw [List.getD_eq_getElem _ _ hlt]
  exact List.getElem_mem ..

/-- C10: every style string other than `"blocks"` and `"ascii"` (misspellings,
the empty string, ...) selects the mixed ramp, so the Glyph Mapper behaves
exactly as `style = "mixed"` and never reports an error. -/
theorem c10_invalid_style_is_mixed (style : String) (hb : style ≠ "blocks")
    (ha : style ≠ "ascii") (brightness : Nat) (invert : Bool) :
    get_brightness_char brightness style invert
      = get_brightness_char brightness "mixed" invert := by
  have h : ramp_for style = ramp_for "mixed" := by
    unfold ramp_for
    rw [if_neg hb, if_neg ha, if_neg (by decide), if_neg (by decide)]
  unfold get_brightness_char effective_ramp
  rw [h]

theorem c10_invalid_style_is_mixed_witness :
    ("mxied" ≠ "blocks") ∧ ("mxied" ≠ "ascii") ∧
      get_brightness_char 100 "mxied" false = get_brightness_char 100 "mixed" false :=
  ⟨by decide, by decide, c10_invalid_style_is_mixed "mxied" (by decide) (by decide) 100 false⟩

/-- C2: rasterizing with `target_width = 0` (aspect preservation on, as
defaulted) produces the empty string when uncolored, and a bare color reset
when colored — a silently blank result, with no "invalid dimensions" failure
anywhere on the path: the code validates no dimension. -/
theorem c2_zero_width_silently_blank (orig_w orig_h ascii_height : Nat)
    (gray : Nat → Nat → Nat) (rgb : Nat → Nat → Nat × Nat × Nat)
    (style : String) (boost : ℚ) (invert : Bool) :
    img_to_ascii_model orig_w orig_h 0 ascii_height true gray rgb false style boost invert = "" ∧
      img_to_ascii_model orig_w orig_h 0 ascii_height true gray rgb true style boost invert
        = ansi_reset := by
  have h0 : effective_height true 0 ascii_height orig_w orig_h = 0 := by
    unfold effective_height pyTrunc
    rw [if_pos rfl]
    norm_num
  constructor <;>
    · unfold img_to_ascii_model
      rw [h0]
      rfl

/-- C4 (counterexample): for a 1-character target width on a 2×3 image the
code computes height `int(1 * 3/2 * 0.5) = int(0.75) = 0`, while the claimed
formula gives `round(1 * 3/2 * 0.5) = round(0.75) = 1`. -/
theorem c4_round_counterexample :
    effective_height true 1 99 2 3 = 0 ∧ spec_round_height 1 2 3 = 1 ∧ (0 : Nat) ≠ 1 := by
  refine ⟨?_, ?_, by decide⟩
  · unfold effective_height pyTrunc
    norm_num
  · unfold spec_round_height
    norm_num [round_eq]

/-- C4 (amended): when `preserve_aspect_ratio` is on, the target height is
recomputed as the truncation `int(target_width * original_height /
original_width * 0.5)` — integer floor division `target_width *
original_height / (2 * original_width)` — not a rounding; this derived height
overrides any caller-supplied height. -/
theorem c4_aspect_height (ascii_width ascii_height orig_w orig_h : Nat) :
    effective_height true ascii_width ascii_height orig_w orig_h
        = ascii_width * orig_h / (2 * orig_w) ∧
      ∀ h2 : Nat, effective_height true ascii_width ascii_height orig_w orig_h
        = effective_height true ascii_width h2 orig_w orig_h := by
  refine ⟨?_, fun h2 => rfl⟩
  unfold effective_height
  rw [if_pos rfl]
  have hq : (0 : ℚ) ≤ (ascii_width : ℚ) * ((orig_h : ℚ) / (orig_w : ℚ)) * (1 / 2) := by
    positivity
  rw [pyTrunc, if_neg (not_lt.mpr hq), Int.floor_toNat]
  have hcast : (ascii_width : ℚ) * ((orig_h : ℚ) / (orig_w : ℚ)) * (1 / 2)
      = ((ascii_width * orig_h : ℕ) : ℚ) / ((2 * orig_w : ℕ) : ℚ) := by
    push_cast
    simp only [div_eq_mul_inv, mul_inv]
    ring
  rw [hcast, Nat.floor_div_nat, Nat.floor_natCast]

/-- C7: in colored rendering each emitted cell is the ANSI prefix for the
`pixel_rgb`-adjusted channels followed by the glyph; and the adjustment scales
each channel by `brightness_boost * 0.7` (clamped to [0,255]) exactly when
`brightness_boost > 1.0`, leaving the channels unchanged when
`brightness_boost ≤ 1.0`. -/
theorem c7_color_boost (gray r g b : Nat) (style : String) (invert : Bool) (boost : ℚ) :
    img_to_ascii_render 1 1 (fun _ _ => gray) (fun _ _ => (r, g, b)) true style boost invert
        = rgb_to_ansi (pixel_rgb boost r g b).1 (pixel_rgb boost r g b).2.1
            (pixel_rgb boost r g b).2.2
          ++ String.singleton (get_brightness_char gray style invert)
          ++ ansi_reset ++ "\n" ++ ansi_reset ∧
      (1 < boost → pixel_rgb boost r g b
        = (adjust_brightness r (boost * (7 / 10)), adjust_brightness g (boost * (7 / 10)),
            adjust_brightness b (boost * (7 / 10)))) ∧
      (boost ≤ 1 → pixel_rgb boost r g b = (r, g, b)) ∧
      adjust_brightness r (boost * (7 / 10)) ≤ 255 := by
  refine ⟨?_, fun h => by rw [pixel_rgb, if_pos h],
    fun h => by rw [pixel_rgb, if_neg (not_lt.mpr h)], ?_⟩
  · rfl
  · unfold adjust_brightness
    omega

theorem c7_color_boost_witness :
    ((1 : ℚ) < 2 ∧ pixel_rgb 2 10 20 30
        = (adjust_brightness 10 (2 * (7 / 10)), adjust_brightness 20 (2 * (7 / 10)),
            adjust_brightness 30 (2 * (7 / 10)))) ∧
      ((1 : ℚ) ≤ 1 ∧ pixel_rgb 1 10 20 30 = (10, 20, 30)) :=
  ⟨⟨by norm_num, (c7_color_boost 5 10 20 30 "mixed" false 2).2.1 (by norm_num)⟩,
    ⟨le_refl 1, (c7_color_boost 5 10 20 30 "mixed" false 1).2.2.1 (le_refl 1)⟩⟩

/-- C6: alpha-blending at `alpha = 0` reproduces the first image exactly, at
`alpha = 1` it reproduces the second image resampled to the first's size (the
second image itself when the sizes already agree), and for every alpha the
output has the first image's dimensions. -/
theorem c6_blend_identity (resample : Img → Nat → Nat → Img) (A B : Img)
    (hr : (resample B A.w A.h).w = A.w ∧ (resample B A.w A.h).h = A.h) :
    interpolate_images resample A B 0 = A ∧
      interpolate_images resample A B 1
        = (if A.w = B.w ∧ A.h = B.h then B else resample B A.w A.h) ∧
      ∀ alpha : ℚ, (interpolate_images resample A B alpha).w = A.w ∧
        (interpolate_images resample A B alpha).h = A.h := by
  refine ⟨image_blend_zero A _, ?_, fun alpha => ⟨rfl, rfl⟩⟩
  show image_blend A (if A.w = B.w ∧ A.h = B.h then B else resample B A.w A.h) 1 = _
  by_cases hsz : A.w = B.w ∧ A.h = B.h
  · rw [if_pos hsz, image_blend_one]
    exact Img.ext_of _ _ hsz.1 hsz.2 rfl
  · rw [if_neg hsz, image_blend_one]
    exact Img.ext_of _ _ hr.1.symm hr.2.symm rfl

theorem c6_blend_identity_witness :
    ((witResample witImgB witImgA.w witImgA.h).w = witImgA.w ∧
        (witResample witImgB witImgA.w witImgA.h).h = witImgA.h) ∧
      interpolate_images witResample witImgA witImgB 0 = witImgA :=
  ⟨⟨rfl, rfl⟩, (c6_blend_identity witResample witImgA witImgB ⟨rfl, rfl⟩).1⟩

theorem interp_fold_length (resample : Img → Nat → Nat → Img) (frames_between : Nat)
    (ps : List (Img × Img)) (acc : List Img) :
    (ps.foldl (fun a pair =>
        a ++ pair.1 :: (List.range frames_between).map (fun (j : Nat) =>
          interpolate_images resample pair.1 pair.2
            (((j : ℚ) + 1) / ((frames_between : ℚ) + 1)))) acc).length
      = acc.length + ps.length * (frames_between + 1) := by
  induction ps generalizing acc with
  | nil => simp
  | cons p ps ih =>
    rw [List.foldl_cons, ih]
    simp only [List.length_append, List.length_cons, List.length_map, List.length_range]
    ring

/-- C3: with at least 2 keyframes the Frame Interpolator emits exactly
`n*(k+1)+1` frames when looping back and `(n-1)*(k+1)+1` frames otherwise
(`n` keyframes, `k = frames_between`); with fewer than 2 keyframes the input
list is returned unchanged. -/
theorem c3_interpolation_length (resample : Img → Nat → Nat → Img) (poses : List Img)
    (frames_between : Nat) (loop_back : Bool) :
    (2 ≤ poses.length →
      (create_interpolated_frames resample poses frames_between loop_back).length
        = (if loop_back then poses.length else poses.length - 1) * (frames_between + 1) + 1) ∧
      (poses.length < 2 →
        create_interpolated_frames resample poses frames_between loop_back = poses) := by
  constructor
  · intro h
    have hn : poses.length - 1 + 1 = poses.length := by omega
    cases loop_back with
    | false =>
      simp only [create_interpolated_frames, if_neg (not_lt.mpr h), Bool.false_eq_true,
        ite_false]
      rw [List.length_append, interp_fold_length]
      simp [List.length_map, List.length_range]
    | true =>
      simp only [create_interpolated_frames, if_neg (not_lt.mpr h), ite_true]
      rw [List.length_append, interp_fold_length]
      simp only [List.length_nil, List.length_append, List.length_map, List.length_range,
        List.length_cons, Nat.zero_add]
      rw [hn]
  · intro h
    unfold create_interpolated_frames
    rw [if_pos h]

theorem c3_interpolation_length_witness :
    (2 ≤ ([witImgA, witImgB] : List Img).length ∧
        (create_interpolated_frames witResample [witImgA, witImgB] 1 false).length = 3) ∧
      (([witImgA] : List Img).length < 2 ∧
        create_interpolated_frames witResample [witImgA] 1 false = [witImgA]) :=
  ⟨⟨by decide, by
      have h := (c3_interpolation_length witResample [witImgA, witImgB] 1 false).1 (by decide)
      simpa using h⟩,
    ⟨by decide, (c3_interpolation_length witResample [witImgA] 1 false).2 (by decide)⟩⟩

/-- C8: for every non-empty frame list, playing with `loop = false` displays
exactly one full pass over the frames in list order and then terminates,
regardless of `loop_count` and of any extra fuel available. -/
theorem c8_no_loop_single_pass (frames : List String) (loop_count : Int) (fuel : Nat)
    (hne : frames ≠ []) (hfuel : 0 < fuel) :
    display_ascii_animation frames false loop_count fuel = some frames := by
  unfold display_ascii_animation
  rw [if_neg (by simpa using hne)]
  obtain ⟨f, rfl⟩ : ∃ f, fuel = f + 1 := ⟨fuel - 1, by omega⟩
  unfold play_loop
  rw [if_pos]
  simp [animation_break]

theorem c8_no_loop_single_pass_witness :
    (["frame one", "frame two"] : List String) ≠ [] ∧ 0 < 7 ∧
      display_ascii_animation ["frame one", "frame two"] false 100 7
        = some ["frame one", "frame two"] :=
  ⟨by decide, by decide,
    c8_no_loop_single_pass ["frame one", "frame two"] 100 7 (by decide) (by decide)⟩

end ImgToAscii
